import Mathlib

/-!
Verification of the train/test evaluation pipeline of the notebook
"Statistical Modeling and Machine Learning": data partitioning (train/test
split and k-fold assignment), the linear-estimator fit/predict contract,
the R² scorer, and the multi-estimator cross-validation comparison loop.

The notebook delegates all numerical work to an external estimator
library; the pipeline operations themselves are modelled here from the
specification's contracts (§3, §4, §7 of the spec), while the call
structure (seeds, the 75/25 split, the per-estimator loop that builds a
fresh fold generator each iteration, the `y = m x + b` prediction lambda)
follows the notebook cells.
-/

namespace MLSpec

/-- Modelled from the spec: the explicit, injectable pseudo-random source
(§9) used for seed-controlled splitting and shuffling.  A linear
congruential step on 31-bit naturals. -/
def lcgNext (s : Nat) : Nat := (1103515245 * s + 12345) % 2 ^ 31

/-- One selection step of the seed-driven shuffle: with fuel `fuel` and
state `s`, repeatedly pick the element at position `s % length` and
recurse on the remainder with the advanced state. -/
def shuffleGo : Nat → Nat → List Nat → List Nat
  | 0, _, _ => []
  | fuel + 1, s, l =>
    if l.length = 0 then []
    else l.getD (s % l.length) 0 :: shuffleGo fuel (lcgNext s) (l.eraseIdx (s % l.length))

/-- Modelled from the spec: the deterministic, seed-controlled shuffle
behind `train_test_split(random_state=…)` and
`KFold(shuffle=True, random_state=…)`, which are supplied by the external
library and absent from the repository sources. -/
def shuffleList (seed : Nat) (l : List Nat) : List Nat := shuffleGo l.length seed l

/-- A sample of the dataset (§3): a fixed-length ordered sequence of numeric
feature values and one numeric target value. -/
structure Sample where
  features : List ℚ
  target : ℚ
deriving Repr, DecidableEq

instance : Inhabited Sample := ⟨⟨[], 0⟩⟩

/-- The error kinds of the pipeline (§7): `invalidSplit`, `unfitted`,
`dimensionMismatch`, `degenerateScore`. -/
inductive PipelineError where
  | invalidSplit
  | unfitted
  | dimensionMismatch
  | degenerateScore
deriving Repr, DecidableEq

/-- The membership assignment produced by the train/test splitter: indices
of the original dataset landing in the training and testing subsets. -/
structure SplitResult where
  trainIdx : List Nat
  testIdx : List Nat
deriving Repr, DecidableEq

/-- Number of held-out samples for fraction `num/den` of `n` samples,
rounded consistently upward (⌈num·n/den⌉). -/
def testCount (n num den : Nat) : Nat := (num * n + den - 1) / den

/-- Modelled from the spec: the train/test splitter behind the library's
`train_test_split` (§4.1), absent from the repository sources.  Given the
dataset size `n`, a held-out fraction `num/den` and a seed, it
deterministically shuffles the sample indices and assigns the first
`testCount` of them to the test subset and the rest to the train subset;
it fails with `invalidSplit` when either subset would be empty. -/
def trainTestSplit (n num den seed : Nat) : Except PipelineError SplitResult :=
  let nTest := testCount n num den
  if nTest = 0 ∨ n ≤ nTest then .error .invalidSplit
  else
    let p := shuffleList seed (List.range n)
    .ok ⟨p.drop nTest, p.take nTest⟩

/-- Extract the samples at the given indices; membership only is assigned,
no feature or target value is altered. -/
def selectSamples (ds : List Sample) (idx : List Nat) : List Sample :=
  idx.map (fun i => ds.getD i default)

/-- Chop an index list into `k` folds of near-equal size: with base size
`q` and `r` remainders, the first `r` folds get one extra element. -/
def kfoldChop : Nat → Nat → Nat → List Nat → List (List Nat)
  | 0, _, _, _ => []
  | k + 1, q, r, l =>
    l.take (q + if 0 < r then 1 else 0) ::
      kfoldChop k q (r - 1) (l.drop (q + if 0 < r then 1 else 0))

/-- Modelled from the spec: the k-fold assignment behind the library's
`KFold` (§3, §4.4), absent from the repository sources.  Partitions the
`n` sample indices — shuffled by the seed when `sh` is set — into `k`
disjoint subsets of near-equal size. -/
def kfoldAssign (n k seed : Nat) (sh : Bool) : List (List Nat) :=
  kfoldChop k (n / k) (n % k) (if sh then shuffleList seed (List.range n) else List.range n)

/-- The fitted model (§3): a coefficient vector, one per feature, and a
scalar intercept. -/
structure FittedModel where
  coef : List ℚ
  intercept : ℚ
deriving Repr, DecidableEq

/-- The closed set of estimator kinds compared by the notebook (cell
`estimators = {...}`): ordinary least squares and the three regularized
variants, each carrying its scalar regularization strength. -/
inductive EstimatorKind where
  | linearRegression
  | elasticNet (alpha : ℚ)
  | lasso (alpha : ℚ)
  | ridge (alpha : ℚ)
deriving Repr, DecidableEq

/-- Modelled from the spec: the numerical solver — least-squares and
regularized coefficient optimization — is supplied by an external library
(§1 Non-goals) and absent from the repository sources; it is kept as an
abstract parameter mapping an estimator kind and training samples to a
fitted model. -/
def Solver : Type := EstimatorKind → List Sample → FittedModel

/-- An estimator instance: its kind and, once `fit` has been called, the
stored fitted model (state machine `unfitted → fitted`, §4.4). -/
structure EstimatorInstance where
  kind : EstimatorKind
  fitted : Option FittedModel
deriving Repr, DecidableEq

/-- `fit`: computes (via the solver) and stores the coefficient vector and
intercept; calling `fit` again overwrites the previous fit (§4.2). -/
def fitI (solver : Solver) (inst : EstimatorInstance) (training : List Sample) :
    EstimatorInstance :=
  { inst with fitted := some (solver inst.kind training) }

/-- Dot product of two equal-length numeric vectors. -/
def dotQ (xs ys : List ℚ) : ℚ := (List.zipWith (fun a b => a * b) xs ys).sum

/-- Prediction for one sample: dot product of its feature vector with the
fitted coefficients, plus the intercept (§4.2). -/
def predictOne (m : FittedModel) (x : List ℚ) : ℚ := dotQ m.coef x + m.intercept

/-- `predict` (§4.2): one numeric prediction per input sample; fails with
`unfitted` before `fit`, and with `dimensionMismatch` when an input
sample's feature count differs from the fit-time feature count. -/
def predictI (inst : EstimatorInstance) (xs : List (List ℚ)) :
    Except PipelineError (List ℚ) :=
  match inst.fitted with
  | none => .error .unfitted
  | some m =>
    if xs.all (fun x => x.length = m.coef.length) then .ok (xs.map (predictOne m))
    else .error .dimensionMismatch

/-- `coefficients` accessor (§4.2): available only after `fit`. -/
def coefficientsI (inst : EstimatorInstance) : Except PipelineError (List ℚ) :=
  match inst.fitted with
  | none => .error .unfitted
  | some m => .ok m.coef

/-- `intercept` accessor (§4.2): available only after `fit`. -/
def interceptI (inst : EstimatorInstance) : Except PipelineError ℚ :=
  match inst.fitted with
  | none => .error .unfitted
  | some m => .ok m.intercept

/-- The prediction lambda of the notebook
(`predict = lambda x: linear_regression.coef_ * x + linear_regression.intercept_`),
specialized to the single-feature simple-regression model. -/
def predictLambda (m : FittedModel) (x : ℚ) : ℚ := m.coef.headD 0 * x + m.intercept

/-- Mean of a numeric sequence. -/
def qmean (xs : List ℚ) : ℚ := xs.sum / xs.length

/-- Sum of squared differences between two equal-length sequences. -/
def ssq (xs ys : List ℚ) : ℚ := (List.zipWith (fun a b => (a - b) ^ 2) xs ys).sum

/-- Total sum of squares of a sequence about its mean. -/
def ssTot (xs : List ℚ) : ℚ := (xs.map (fun x => (x - qmean xs) ^ 2)).sum

/-- Modelled from the spec: the scorer behind the library's
`metrics.r2_score` (§4.3), absent from the repository sources.  Computes
1 − SS_res/SS_tot; fails with `dimensionMismatch` on unequal lengths and
with `degenerateScore` when the expected values have no variance. -/
def r2_score (expected predicted : List ℚ) : Except PipelineError ℚ :=
  if expected.length ≠ predicted.length then .error .dimensionMismatch
  else if ssTot expected = 0 then .error .degenerateScore
  else .ok (1 - ssq expected predicted / ssTot expected)

/-- Ambient pseudo-random state, drawn upon only by generators constructed
without an explicit seed. -/
structure RngState where
  state : Nat
deriving Repr, DecidableEq

/-- Modelled from the spec: constructing a fold generator as the notebook
loop does (`kfold = KFold(n_splits=10, random_state=11, shuffle=True)`).
With an explicit seed the fold assignment depends only on
`(n, k, seed, sh)` and the ambient random state is left untouched; with no
seed the assignment is drawn from the ambient state, which advances. -/
def mkFolds (n k : Nat) (seed : Option Nat) (sh : Bool) (g : RngState) :
    List (List Nat) × RngState :=
  match seed with
  | some s => (kfoldAssign n k s sh, g)
  | none => (kfoldAssign n k g.state sh, ⟨lcgNext g.state⟩)

/-- Cloning an estimator instance: same kind and hyperparameters, unfitted
state — what the cross-validation runner trains per fold instead of the
caller's instance. -/
def cloneI (inst : EstimatorInstance) : EstimatorInstance := ⟨inst.kind, none⟩

/-- One cross-validation round (§4.4): train a fresh clone on the flattened
non-held-out folds, predict on the held-out fold `j`, and score with R². -/
def foldScore (solver : Solver) (inst : EstimatorInstance) (ds : List Sample)
    (folds : List (List Nat)) (j : Nat) : Except PipelineError ℚ :=
  let testS := selectSamples ds (folds.getD j [])
  let trainS := selectSamples ds (folds.eraseIdx j).flatten
  let fittedClone := fitI solver (cloneI inst) trainS
  match predictI fittedClone (testS.map Sample.features) with
  | .error e => .error e
  | .ok preds => r2_score (testS.map Sample.target) preds

/-- Modelled from the spec: the library's `cross_val_score` (§4.4), absent
from the repository sources.  Returns the ordered sequence of per-fold
scores (order corresponds to fold index) together with the caller's
estimator instance, which it never fits — each round trains a fresh
clone. -/
def cross_val_score (solver : Solver) (inst : EstimatorInstance) (ds : List Sample)
    (folds : List (List Nat)) :
    List (Except PipelineError ℚ) × EstimatorInstance :=
  ((List.range folds.length).map (foldScore solver inst ds folds), inst)

/-- The notebook's multi-estimator comparison loop (cell
`for estimator_name, estimator_object in estimators.items(): ...`): for
each estimator instance in turn, construct a fresh fold generator from the
same seed/shuffle configuration, run cross-validation, and collect per
estimator the fold assignment used and the scores; the final estimator
instances and ambient random state are threaded through and returned. -/
def comparisonLoop (solver : Solver) (ds : List Sample) (k : Nat) (seed : Option Nat)
    (sh : Bool) :
    List EstimatorInstance → RngState →
      List (List (List Nat) × List (Except PipelineError ℚ)) ×
        List EstimatorInstance × RngState
  | [], g => ([], [], g)
  | inst :: rest, g =>
    let fg := mkFolds ds.length k seed sh g
    let sc := cross_val_score solver inst ds fg.1
    let recur := comparisonLoop solver ds k seed sh rest fg.2
    ((fg.1, sc.1) :: recur.1, sc.2 :: recur.2.1, recur.2.2)

/-- A concrete eight-sample single-feature dataset in the style of the
notebook's NYC temperature table, used to instantiate the theorems. -/
def sampleData : List Sample :=
  [⟨[1895], 30⟩, ⟨[1896], 31⟩, ⟨[1897], 29⟩, ⟨[1898], 33⟩,
    ⟨[1899], 32⟩, ⟨[1900], 30⟩, ⟨[1901], 34⟩, ⟨[1902], 31⟩]

/-- Equality of pipeline results is decidable, so concrete runs can be
checked by evaluation. -/
instance : DecidableEq (Except PipelineError SplitResult) := fun x y =>
  match x, y with
  | .ok a, .ok b =>
    if h : a = b then .isTrue (by rw [h])
    else .isFalse (by intro hc; injection hc; exact h (by assumption))
  | .error a, .error b =>
    if h : a = b then .isTrue (by rw [h])
    else .isFalse (by intro hc; injection hc; exact h (by assumption))
  | .ok _, .error _ => .isFalse (by intro hc; exact Except.noConfusion hc)
  | .error _, .ok _ => .isFalse (by intro hc; exact Except.noConfusion hc)

theorem getD_cons_eraseIdx_perm :
    ∀ (l : List Nat) (i : Nat), i < l.length → (l.getD i 0 :: l.eraseIdx i).Perm l := by
  intro l
  induction l with
  | nil => intro i h; simp at h
  | cons a t ih =>
    intro i h
    cases i with
    | zero => simp
    | succ j =>
      simp only [List.getD_cons_succ, List.eraseIdx_cons_succ]
      have hj : j < t.length := by simpa using h
      exact (List.Perm.swap a (t.getD j 0) (t.eraseIdx j)).trans ((ih j hj).cons a)

theorem shuffleGo_perm :
    ∀ (fuel s : Nat) (l : List Nat), l.length ≤ fuel → (shuffleGo fuel s l).Perm l := by
  intro fuel
  induction fuel with
  | zero =>
    intro s l h
    have : l = [] := List.length_eq_zero.mp (Nat.le_zero.mp h)
    simp [this, shuffleGo]
  | succ f ih =>
    intro s l h
    by_cases hl : l.length = 0
    · have : l = [] := List.length_eq_zero.mp hl
      simp [this, shuffleGo]
    · have hpos : 0 < l.length := Nat.pos_of_ne_zero hl
      have hi : s % l.length < l.length := Nat.mod_lt _ hpos
      have herase : (l.eraseIdx (s % l.length)).length ≤ f := by
        have := List.length_eraseIdx_add_one hi
        omega
      have hrec := ih (lcgNext s) (l.eraseIdx (s % l.length)) herase
      simp only [shuffleGo, if_neg hl]
      exact (hrec.cons _).trans (getD_cons_eraseIdx_perm l _ hi)

theorem shuffleList_perm (seed : Nat) (l : List Nat) : (shuffleList seed l).Perm l :=
  shuffleGo_perm l.length seed l (Nat.le_refl _)

theorem kfoldChop_length (k : Nat) :
    ∀ (q r : Nat) (l : List Nat), (kfoldChop k q r l).length = k := by
  induction k with
  | zero => intro q r l; simp [kfoldChop]
  | succ m ih => intro q r l; simp [kfoldChop, ih]

theorem kfoldChop_flatten (k : Nat) :
    ∀ (q r : Nat) (l : List Nat), (kfoldChop k q r l).flatten = l.take (k * q + min r k) := by
  induction k with
  | zero => intro q r l; simp [kfoldChop]
  | succ m ih =>
    intro q r l
    simp only [kfoldChop, List.flatten_cons, ih]
    rw [← List.take_add]
    congr 1
    rw [Nat.succ_mul]
    rcases Nat.eq_zero_or_pos r with hr | hr
    · subst hr; simp; omega
    · rw [if_pos hr]
      omega

theorem kfoldAssign_base_perm (n seed : Nat) (sh : Bool) :
    ((if sh then shuffleList seed (List.range n) else List.range n) : List Nat).Perm
      (List.range n) := by
  cases sh
  · simp
  · simpa using shuffleList_perm seed (List.range n)

theorem kfoldAssign_flatten (n k seed : Nat) (sh : Bool) (hk : 0 < k) :
    (kfoldAssign n k seed sh).flatten =
      (if sh then shuffleList seed (List.range n) else List.range n) := by
  set l := (if sh then shuffleList seed (List.range n) else List.range n) with hl
  have hlen : l.length = n := by
    rw [hl]
    have := (kfoldAssign_base_perm n seed sh).length_eq
    simpa using this
  have hsum : k * (n / k) + min (n % k) k = n := by
    have hmod : n % k < k := Nat.mod_lt _ hk
    have := Nat.div_add_mod n k
    omega
  rw [kfoldAssign, ← hl, kfoldChop_flatten, hsum, ← hlen, List.take_length]

theorem kfoldAssign_flatten_perm (n k seed : Nat) (sh : Bool) (hk : 0 < k) :
    ((kfoldAssign n k seed sh).flatten).Perm (List.range n) := by
  rw [kfoldAssign_flatten n k seed sh hk]
  exact kfoldAssign_base_perm n seed sh

theorem kfoldAssign_flatten_nodup (n k seed : Nat) (sh : Bool) (hk : 0 < k) :
    ((kfoldAssign n k seed sh).flatten).Nodup :=
  (kfoldAssign_flatten_perm n k seed sh hk).nodup_iff.mpr (List.nodup_range n)

theorem map_getD_range (ds : List Sample) :
    (List.range ds.length).map (fun i => ds.getD i default) = ds := by
  induction ds with
  | nil => simp
  | cons a t ih =>
    have hmap : (List.range t.length).map ((fun i => (a :: t).getD i default) ∘ Nat.succ)
        = (List.range t.length).map (fun i => t.getD i default) := by
      apply List.map_congr_left; intro i _; simp
    simp only [List.length_cons, List.range_succ_eq_map, List.map_cons, List.getD_cons_zero,
      List.map_map, hmap, ih]

theorem ssq_self (e : List ℚ) : ssq e e = 0 := by
  induction e with
  | nil => simp [ssq]
  | cons a t ih =>
    simp only [ssq, List.zipWith_cons_cons, List.sum_cons] at ih ⊢
    simp [ih]

/-- C2: for equal-length numeric sequences `expected` and `predicted` (with
the zero-variance case excluded, which the scorer rejects per §4.3),
`r2_score` returns 1 minus the sum of squared differences between expected
and predicted divided by the sum of squared differences between expected
and its mean; in particular identical sequences score exactly 1. -/
theorem r2_score_formula (e p : List ℚ) (hlen : e.length = p.length)
    (hvar : ssTot e ≠ 0) :
    r2_score e p = .ok (1 - ssq e p / ssTot e) ∧ r2_score e e = .ok 1 := by
  refine ⟨by simp [r2_score, hlen, hvar], ?_⟩
  simp [r2_score, hvar, ssq_self]

/-- C2 witness: concrete sequences `[1, 2]` and `[1, 1]`. -/
theorem r2_score_formula_witness :
    ([1, 2] : List ℚ).length = ([1, 1] : List ℚ).length ∧ ssTot [1, 2] ≠ 0 ∧
      (r2_score [1, 2] [1, 1] = .ok (1 - ssq [1, 2] [1, 1] / ssTot [1, 2]) ∧
        r2_score ([1, 2] : List ℚ) [1, 2] = .ok 1) := by
  have hlen : ([1, 2] : List ℚ).length = ([1, 1] : List ℚ).length := rfl
  have hvar : ssTot ([1, 2] : List ℚ) ≠ 0 := by norm_num [ssTot, qmean]
  exact ⟨hlen, hvar, r2_score_formula [1, 2] [1, 1] hlen hvar⟩

/-- C7: when all expected values are identical (zero variance in the
denominator), the scorer detects the condition and reports the
`degenerateScore` error rather than silently dividing. -/
theorem r2_score_degenerate (c : ℚ) (n : Nat) (p : List ℚ) (hn : 0 < n)
    (hlen : p.length = n) :
    r2_score (List.replicate n c) p = .error .degenerateScore := by
  have hq : qmean (List.replicate n c) = c := by
    have hne : (n : ℚ) ≠ 0 := Nat.cast_ne_zero.mpr (Nat.pos_iff_ne_zero.mp hn)
    simp only [qmean, List.sum_replicate, List.length_replicate, nsmul_eq_mul]
    exact mul_div_cancel_left₀ c hne
  have htot : ssTot (List.replicate n c) = 0 := by
    simp [ssTot, hq]
  simp [r2_score, htot, hlen]

/-- C7 witness: three identical expected values against `[1, 2, 3]`. -/
theorem r2_score_degenerate_witness :
    0 < 3 ∧ ([1, 2, 3] : List ℚ).length = 3 ∧
      r2_score (List.replicate 3 (5 : ℚ)) [1, 2, 3] = .error .degenerateScore :=
  ⟨by decide, rfl, r2_score_degenerate 5 3 [1, 2, 3] (by decide) rfl⟩

/-- C3: on a fitted estimator, for input samples whose feature count
matches the fit-time feature count, `predict` returns, per sample, the dot
product of its feature vector with the fitted coefficient vector plus the
intercept; the notebook's single-feature prediction lambda agrees with it
on one-feature models. -/
theorem predictI_dot (inst : EstimatorInstance) (m : FittedModel) (xs : List (List ℚ))
    (hf : inst.fitted = some m) (hdim : ∀ x ∈ xs, x.length = m.coef.length) :
    predictI inst xs = .ok (xs.map (fun x => dotQ m.coef x + m.intercept)) ∧
      (m.coef.length = 1 → ∀ x : ℚ, predictLambda m x = predictOne m [x]) := by
  constructor
  · have hall : xs.all (fun x => x.length = m.coef.length) = true := by
      rw [List.all_eq_true]
      intro x hx
      exact decide_eq_true (hdim x hx)
    simp [predictI, hf, hall, predictOne]
  · intro h1 x
    rcases List.length_eq_one.mp h1 with ⟨c, hc⟩
    simp [predictLambda, predictOne, dotQ, hc]

/-- C3 witness: model with coefficients `[2]`, intercept `3`, inputs
`[[1], [4]]`. -/
theorem predictI_dot_witness :
    (EstimatorInstance.mk .linearRegression (some ⟨[2], 3⟩)).fitted = some ⟨[2], 3⟩ ∧
      (∀ x ∈ ([[1], [4]] : List (List ℚ)), x.length = (FittedModel.mk [2] 3).coef.length) ∧
      (predictI ⟨.linearRegression, some ⟨[2], 3⟩⟩ [[1], [4]] =
          .ok (([[1], [4]] : List (List ℚ)).map
            (fun x => dotQ (FittedModel.mk [2] 3).coef x + (FittedModel.mk [2] 3).intercept)) ∧
        ((FittedModel.mk [2] 3).coef.length = 1 →
          ∀ x : ℚ, predictLambda ⟨[2], 3⟩ x = predictOne ⟨[2], 3⟩ [x])) := by
  have hdim : ∀ x ∈ ([[1], [4]] : List (List ℚ)), x.length = (FittedModel.mk [2] 3).coef.length := by
    decide
  exact ⟨rfl, hdim, predictI_dot ⟨.linearRegression, some ⟨[2], 3⟩⟩ ⟨[2], 3⟩ [[1], [4]] rfl hdim⟩

/-- C8: calling `predict`, or the coefficients/intercept accessors, on an
estimator before `fit` fails with the `unfitted` error. -/
theorem predictI_unfitted (inst : EstimatorInstance) (xs : List (List ℚ))
    (h : inst.fitted = none) :
    predictI inst xs = .error .unfitted ∧ coefficientsI inst = .error .unfitted ∧
      interceptI inst = .error .unfitted := by
  simp [predictI, coefficientsI, interceptI, h]

/-- C8 witness: a freshly constructed, never-fitted estimator. -/
theorem predictI_unfitted_witness :
    (EstimatorInstance.mk (.lasso 1) none).fitted = none ∧
      (predictI ⟨.lasso 1, none⟩ [[1]] = .error .unfitted ∧
        coefficientsI ⟨.lasso 1, none⟩ = .error .unfitted ∧
        interceptI ⟨.lasso 1, none⟩ = .error .unfitted) :=
  ⟨rfl, predictI_unfitted ⟨.lasso 1, none⟩ [[1]] rfl⟩

/-- C9: calling `predict` on a fitted estimator with an input sample whose
feature count differs from the fit-time feature count fails with the
`dimensionMismatch` error. -/
theorem predictI_dim_mismatch (inst : EstimatorInstance) (m : FittedModel)
    (xs : List (List ℚ)) (x : List ℚ) (hf : inst.fitted = some m) (hx : x ∈ xs)
    (hlen : x.length ≠ m.coef.length) :
    predictI inst xs = .error .dimensionMismatch := by
  have hall : xs.all (fun x => x.length = m.coef.length) = false := by
    rw [List.all_eq_false]
    exact ⟨x, hx, by simpa using hlen⟩
  simp [predictI, hf, hall]

/-- C9 witness: a two-feature model queried with a one-feature sample. -/
theorem predictI_dim_mismatch_witness :
    (EstimatorInstance.mk (.ridge 1) (some ⟨[1, 2], 0⟩)).fitted = some ⟨[1, 2], 0⟩ ∧
      ([3] : List ℚ) ∈ ([[3]] : List (List ℚ)) ∧
      ([3] : List ℚ).length ≠ (FittedModel.mk [1, 2] 0).coef.length ∧
      predictI ⟨.ridge 1, some ⟨[1, 2], 0⟩⟩ [[3]] = .error .dimensionMismatch := by
  have hx : ([3] : List ℚ) ∈ ([[3]] : List (List ℚ)) := by simp
  have hlen : ([3] : List ℚ).length ≠ (FittedModel.mk [1, 2] 0).coef.length := by simp
  exact ⟨rfl, hx, hlen,
    predictI_dim_mismatch ⟨.ridge 1, some ⟨[1, 2], 0⟩⟩ ⟨[1, 2], 0⟩ [[3]] [3] rfl hx hlen⟩

/-- C1: with a fixed seed and shuffle setting, every estimator in one
comparison run is scored against exactly the same fold partition — the
fold assignment recorded for each iteration equals the one determined by
`(n, k, seed, shuffle)` even though a fresh fold generator is constructed
inside the per-estimator loop — and the recorded assignments and scores do
not depend on the ambient random state, so repeated runs are identical. -/
theorem comparisonLoop_same_partition (solver : Solver) (ds : List Sample) (k s : Nat)
    (sh : Bool) (ests : List EstimatorInstance) (g g' : RngState) :
    ((comparisonLoop solver ds k (some s) sh ests g).1).map Prod.fst =
        List.replicate ests.length (kfoldAssign ds.length k s sh) ∧
      (comparisonLoop solver ds k (some s) sh ests g).1 =
        (comparisonLoop solver ds k (some s) sh ests g').1 := by
  induction ests generalizing g g' with
  | nil => simp [comparisonLoop]
  | cons inst rest ih =>
    have h := ih g g'
    have h' := ih g' g'
    simp only [comparisonLoop, mkFolds]
    simp [h.1, h.2, h'.1, List.replicate_succ]

/-- C10: running the multi-estimator cross-validation comparison leaves
every estimator instance in the `estimators` mapping — in particular the
previously fitted `linear_regression` — unchanged: each fold trains a
fresh clone, so the stored coefficient vectors and intercepts after the
loop equal those before it. -/
theorem comparisonLoop_frame (solver : Solver) (ds : List Sample) (k : Nat)
    (seed : Option Nat) (sh : Bool) (ests : List EstimatorInstance) (g : RngState) :
    (comparisonLoop solver ds k seed sh ests g).2.1 = ests ∧
      ((comparisonLoop solver ds k seed sh ests g).2.1).map
          (fun i => (coefficientsI i, interceptI i)) =
        ests.map (fun i => (coefficientsI i, interceptI i)) := by
  have h1 : (comparisonLoop solver ds k seed sh ests g).2.1 = ests := by
    induction ests generalizing g with
    | nil => simp [comparisonLoop]
    | cons inst rest ih => simp [comparisonLoop, cross_val_score, ih]
  exact ⟨h1, by rw [h1]⟩

/-- C4: running the train/test splitter twice with the same dataset size,
held-out fraction and seed yields identical train/test membership both
times. -/
theorem trainTestSplit_deterministic (n num den seed : Nat) (r1 r2 : SplitResult)
    (h1 : trainTestSplit n num den seed = .ok r1)
    (h2 : trainTestSplit n num den seed = .ok r2) :
    ∀ i : Nat, (i ∈ r1.trainIdx ↔ i ∈ r2.trainIdx) ∧ (i ∈ r1.testIdx ↔ i ∈ r2.testIdx) := by
  rw [h1] at h2
  injection h2 with h
  subst h
  intro i
  exact ⟨Iff.rfl, Iff.rfl⟩

/-- C4 witness: two runs on 8 samples, fraction 1/4, seed 11. -/
theorem trainTestSplit_deterministic_witness :
    trainTestSplit 8 1 4 11 = .ok ⟨[5, 7, 6, 0, 4, 2], [3, 1]⟩ ∧
      ∀ i : Nat,
        (i ∈ (SplitResult.mk [5, 7, 6, 0, 4, 2] [3, 1]).trainIdx ↔
          i ∈ (SplitResult.mk [5, 7, 6, 0, 4, 2] [3, 1]).trainIdx) ∧
        (i ∈ (SplitResult.mk [5, 7, 6, 0, 4, 2] [3, 1]).testIdx ↔
          i ∈ (SplitResult.mk [5, 7, 6, 0, 4, 2] [3, 1]).testIdx) := by
  have h : trainTestSplit 8 1 4 11 = .ok ⟨[5, 7, 6, 0, 4, 2], [3, 1]⟩ := by decide
  exact ⟨h, trainTestSplit_deterministic 8 1 4 11 _ _ h h⟩

/-- C5: the train and test subsets produced by the splitter partition the
original samples — together their indices are a permutation of all sample
indices, the two index sets are disjoint, and the extracted train and test
samples together are a permutation of the original dataset, no feature or
target value altered. -/
theorem trainTestSplit_partition (n num den seed : Nat) (r : SplitResult)
    (h : trainTestSplit n num den seed = .ok r) :
    (r.trainIdx ++ r.testIdx).Perm (List.range n) ∧
      r.trainIdx.Disjoint r.testIdx ∧
      ∀ ds : List Sample, ds.length = n →
        (selectSamples ds r.trainIdx ++ selectSamples ds r.testIdx).Perm ds := by
  unfold trainTestSplit at h
  by_cases hc : testCount n num den = 0 ∨ n ≤ testCount n num den
  · simp [hc] at h
  · simp only [hc, if_false] at h
    injection h with h
    subst h
    set t := testCount n num den with ht
    set p := shuffleList seed (List.range n) with hp
    have hperm : p.Perm (List.range n) := shuffleList_perm _ _
    have h1 : (p.drop t ++ p.take t).Perm (List.range n) := by
      refine List.perm_append_comm.trans ?_
      rw [List.take_append_drop]
      exact hperm
    have hnodup : p.Nodup := hperm.nodup_iff.mpr (List.nodup_range n)
    have hnd2 : (p.take t ++ p.drop t).Nodup := by
      rw [List.take_append_drop]
      exact hnodup
    have hdisj : (p.drop t).Disjoint (p.take t) :=
      (List.disjoint_of_nodup_append hnd2).symm
    refine ⟨h1, hdisj, ?_⟩
    intro ds hds
    have hsel : selectSamples ds (p.drop t) ++ selectSamples ds (p.take t) =
        (p.drop t ++ p.take t).map (fun i => ds.getD i default) := by
      simp [selectSamples]
    rw [hsel]
    have hmap := h1.map (fun i => ds.getD i default)
    have hid : (List.range n).map (fun i => ds.getD i default) = ds := by
      rw [← hds]
      exact map_getD_range ds
    rw [hid] at hmap
    exact hmap

/-- C5 witness: concrete 8-sample dataset, fraction 1/4, seed 11. -/
theorem trainTestSplit_partition_witness :
    trainTestSplit 8 1 4 11 = .ok ⟨[5, 7, 6, 0, 4, 2], [3, 1]⟩ ∧
      (([5, 7, 6, 0, 4, 2] ++ [3, 1] : List Nat).Perm (List.range 8) ∧
        ([5, 7, 6, 0, 4, 2] : List Nat).Disjoint [3, 1] ∧
        (selectSamples sampleData [5, 7, 6, 0, 4, 2] ++
          selectSamples sampleData [3, 1]).Perm sampleData) := by
  have h : trainTestSplit 8 1 4 11 = .ok ⟨[5, 7, 6, 0, 4, 2], [3, 1]⟩ := by decide
  have hmain := trainTestSplit_partition 8 1 4 11 ⟨[5, 7, 6, 0, 4, 2], [3, 1]⟩ h
  exact ⟨h, hmain.1, hmain.2.1, hmain.2.2 sampleData (by decide)⟩

/-- C6: for every valid fold count, the k-fold assignment produces exactly
`k` folds whose concatenation is a permutation of all sample indices, the
folds are pairwise disjoint and duplicate-free, and every sample index
belongs to exactly one fold — hence is used as test data exactly once
across the `k` rounds. -/
theorem kfoldAssign_partition (n k seed : Nat) (sh : Bool) (hk : 0 < k) :
    (kfoldAssign n k seed sh).length = k ∧
      ((kfoldAssign n k seed sh).flatten).Perm (List.range n) ∧
      List.Pairwise List.Disjoint (kfoldAssign n k seed sh) ∧
      (∀ l ∈ kfoldAssign n k seed sh, l.Nodup) ∧
      ∀ i, i < n → ∃! j : Fin (kfoldAssign n k seed sh).length,
        i ∈ (kfoldAssign n k seed sh).get j := by
  have hlen : (kfoldAssign n k seed sh).length = k := by
    rw [kfoldAssign]
    exact kfoldChop_length k _ _ _
  have hperm := kfoldAssign_flatten_perm n k seed sh hk
  have hnodup := kfoldAssign_flatten_nodup n k seed sh hk
  have hnj := List.nodup_flatten.mp hnodup
  refine ⟨hlen, hperm, hnj.2, hnj.1, ?_⟩
  intro i hi
  have hiF : i ∈ (kfoldAssign n k seed sh).flatten :=
    hperm.mem_iff.mpr (List.mem_range.mpr hi)
  rcases List.mem_flatten.mp hiF with ⟨l, hlF, hil⟩
  rcases List.mem_iff_get.mp hlF with ⟨j, hj⟩
  refine ⟨j, ?_, ?_⟩
  · show i ∈ (kfoldAssign n k seed sh).get j
    rw [hj]
    exact hil
  intro j' hj'
  by_contra hne
  have hij : i ∈ (kfoldAssign n k seed sh)[j.1] := by
    rw [← List.get_eq_getElem, hj]
    exact hil
  have hij' : i ∈ (kfoldAssign n k seed sh)[j'.1] := by
    rw [← List.get_eq_getElem]
    exact hj'
  have hvne : j'.1 ≠ j.1 := fun hv => hne (Fin.ext hv)
  rcases Nat.lt_or_ge j'.1 j.1 with hlt | hge
  · exact (List.pairwise_iff_getElem.mp hnj.2) j'.1 j.1 j'.2 j.2 hlt hij' hij
  · have hlt' : j.1 < j'.1 := Nat.lt_of_le_of_ne hge (fun hv => hvne hv.symm)
    exact (List.pairwise_iff_getElem.mp hnj.2) j.1 j'.1 j.2 j'.2 hlt' hij hij'

/-- C6 witness: 7 samples in 3 shuffled folds with seed 5. -/
theorem kfoldAssign_partition_witness :
    0 < 3 ∧
      ((kfoldAssign 7 3 5 true).length = 3 ∧
        ((kfoldAssign 7 3 5 true).flatten).Perm (List.range 7) ∧
        List.Pairwise List.Disjoint (kfoldAssign 7 3 5 true) ∧
        (∀ l ∈ kfoldAssign 7 3 5 true, l.Nodup) ∧
        ∀ i, i < 7 → ∃! j : Fin (kfoldAssign 7 3 5 true).length,
          i ∈ (kfoldAssign 7 3 5 true).get j) :=
  ⟨by decide, kfoldAssign_partition 7 3 5 true (by decide)⟩

end MLSpec
